import Mathlib

/-!
Verification development for the news-feeds build script
(`src/scripts/build.py`).  The Python source is shallowly embedded:
records (Python dicts) become structures whose absent string fields are
the empty string and whose absent timestamps are `0`, Python's string
primitives (`strip`, `lower`, `startswith`, substring `in`, `%`-decoding)
become character-list functions that the kernel can evaluate, Python's
truthiness-based `or` on strings becomes `strOr`, and the network call
inside `resolve_to_publisher` becomes an explicit oracle parameter
`fetch : String -> Option String` (`none` models any raised exception).
-/

set_option maxRecDepth 200000

namespace NewsFeeds

/-- The whitespace characters stripped by Python's `str.strip` (ASCII
range; the Unicode whitespace code points are immaterial here). -/
def isSpaceChar (c : Char) : Bool :=
  c = ' ' ∨ c = '\t' ∨ c = '\n' ∨ c = '\r' ∨ c = '\x0b' ∨ c = '\x0c'

/-- Python `s.strip()`: drop leading and trailing whitespace. -/
def pyStrip (s : String) : String :=
  String.mk (((s.data.dropWhile isSpaceChar).reverse.dropWhile isSpaceChar).reverse)

/-- Python `s.rstrip()`: drop trailing whitespace. -/
def pyRStrip (s : String) : String :=
  String.mk ((s.data.reverse.dropWhile isSpaceChar).reverse)

/-- Python `s.lower()` (ASCII letters; enough for the data at hand). -/
def pyLower (s : String) : String :=
  String.mk (s.data.map (fun c =>
    if 'A' ≤ c ∧ c ≤ 'Z' then Char.ofNat (c.toNat + 32) else c))

/-- Python `s.startswith(p)` on strings: character-list prefix test. -/
def strStartsWith (s p : String) : Bool :=
  p.data.isPrefixOf s.data

/-- Character-list substring occurrence. -/
def containsSub (sub : List Char) : List Char → Bool
  | [] => sub.isEmpty
  | c :: t => sub.isPrefixOf (c :: t) || containsSub sub t

/-- Python `sub in s` substring test. -/
def strContains (s sub : String) : Bool :=
  containsSub sub.data s.data

/-- Python `a or b` for strings where `None` is modelled as `""`. -/
def strOr (a b : String) : String :=
  if a = "" then b else a

/-- `safe_str` (build.py line 163): `(x or "").strip()` with `None` as `""`. -/
def safe_str (x : String) : String :=
  pyStrip x

/-- `_clean_exclusion` (build.py lines 29-33): strip, then drop one leading
`-` and strip again. -/
def _clean_exclusion (x : String) : String :=
  let x := pyStrip x
  if x = "" then ""
  else if strStartsWith x "-" then pyStrip (String.mk (x.data.drop 1))
  else x

/-- An `Item` record (build.py `incoming` dict / persisted catalog items).
Absent fields are `""` (resp. `0` for the timestamp), matching
`safe_str`/`int(... or 0)` access in the source. -/
structure Item where
  id : String
  bundle : String
  query : String
  title : String
  source : String
  url : String
  canonical_url : String
  guid : String
  published_ts : Int
  blurb : String
  image_url : String
  pdf_path : String
deriving DecidableEq, Repr

/-- The fill-if-blank assignment of `merge_item`'s field loop
(build.py lines 241-243): `if not safe_str(out.get(k)): out[k] =
incoming.get(k) or out.get(k)`. -/
def fillBlank (e i : String) : String :=
  if safe_str e = "" then strOr i e else e

/-- The timestamp rule of `merge_item` (build.py lines 236-239). -/
def mergeTs (ex inc : Int) : Int :=
  if ex = 0 ∧ inc ≠ 0 then inc else ex

/-- The canonical-url rule of `merge_item`: the field loop result
(build.py line 241-243) overridden by the explicit upgrade check on the
original `existing` record (build.py lines 245-246). -/
def mergeCanon (e i : String) : String :=
  if safe_str i ≠ "" ∧ safe_str e = "" then i else fillBlank e i

/-- `merge_item` (build.py lines 232-248).  `out = dict(existing)` means
every field not reassigned (in particular `blurb`, `image_url`,
`pdf_path`) is carried over from `existing`. -/
def merge_item (existing incoming : Item) : Item :=
  { existing with
    id := strOr existing.id incoming.id
    published_ts := mergeTs existing.published_ts incoming.published_ts
    title := fillBlank existing.title incoming.title
    source := fillBlank existing.source incoming.source
    bundle := fillBlank existing.bundle incoming.bundle
    query := fillBlank existing.query incoming.query
    url := fillBlank existing.url incoming.url
    canonical_url := mergeCanon existing.canonical_url incoming.canonical_url
    guid := fillBlank existing.guid incoming.guid }

/-- A Python dict with string keys, as an association list in insertion
order (`by_id` in build.py `main`). -/
abbrev Store := List (String × Item)

/-- Dict lookup `m[k]`: value of the first entry with the key. -/
def dictGet? : Store → String → Option Item
  | [], _ => none
  | p :: t, k => if p.1 = k then some p.2 else dictGet? t k

/-- Dict membership `k in m`. -/
def dictMem : Store → String → Bool
  | [], _ => false
  | p :: t, k => p.1 = k || dictMem t k

/-- In-place update of every entry carrying the key. -/
def dictReplace : Store → String → Item → Store
  | [], _, _ => []
  | p :: t, k, v => (if p.1 = k then (k, v) else p) :: dictReplace t k v

/-- Dict assignment `m[k] = v`: replace in place when the key is present,
append otherwise (Python dicts preserve insertion order). -/
def dictSet (m : Store) (k : String) (v : Item) : Store :=
  if dictMem m k then dictReplace m k v else m ++ [(k, v)]

/-- One candidate folded into the store (build.py lines 304-308):
`if iid in by_id: by_id[iid] = merge_item(by_id[iid], incoming)
else: by_id[iid] = incoming`. -/
def mergeCandidate (m : Store) (c : Item) : Store :=
  match dictGet? m c.id with
  | some e => dictSet m c.id (merge_item e c)
  | none => dictSet m c.id c

/-! ### Merge lemmas -/

theorem strOr_self (a : String) : strOr a a = a := by
  simp [strOr]

theorem strOr_strOr (a b : String) : strOr (strOr a b) b = strOr a b := by
  simp only [strOr]
  split_ifs <;> simp_all

theorem mergeTs_self (a : Int) : mergeTs a a = a := by
  simp [mergeTs]

theorem mergeTs_mergeTs (a b : Int) : mergeTs (mergeTs a b) b = mergeTs a b := by
  simp only [mergeTs]
  split_ifs <;> simp_all

theorem fillBlank_self (e : String) : fillBlank e e = e := by
  simp [fillBlank, strOr, ite_self]

theorem fillBlank_fillBlank (e i : String) :
    fillBlank (fillBlank e i) i = fillBlank e i := by
  simp only [fillBlank, strOr, safe_str]
  split_ifs <;> simp_all

theorem mergeCanon_self (e : String) : mergeCanon e e = e := by
  simp only [mergeCanon]
  split_ifs with h
  · exact absurd h.2 h.1
  · exact fillBlank_self e

theorem mergeCanon_mergeCanon (e i : String) :
    mergeCanon (mergeCanon e i) i = mergeCanon e i := by
  simp only [mergeCanon, fillBlank, strOr, safe_str]
  split_ifs <;> simp_all

theorem merge_item_self (c : Item) : merge_item c c = c := by
  cases c
  simp [merge_item, strOr_self, mergeTs_self, fillBlank_self, mergeCanon_self]

theorem merge_item_merge_item (e c : Item) :
    merge_item (merge_item e c) c = merge_item e c := by
  cases e; cases c
  simp [merge_item, strOr_strOr, mergeTs_mergeTs, fillBlank_fillBlank,
    mergeCanon_mergeCanon]

theorem dictGet?_dictReplace (k : String) (v : Item) :
    ∀ m : Store, dictMem m k = true →
      dictGet? (dictReplace m k v) k = some v := by
  intro m
  induction m with
  | nil => intro h; simp [dictMem] at h
  | cons p t ih =>
    intro h
    rw [dictMem, Bool.or_eq_true, decide_eq_true_eq] at h
    rw [dictReplace]
    by_cases hp : p.1 = k
    · rw [if_pos hp, dictGet?, if_pos rfl]
    · rw [if_neg hp, dictGet?, if_neg hp]
      exact ih (h.resolve_left hp)

theorem dictGet?_append_self (k : String) (v : Item) :
    ∀ m : Store, dictMem m k = false →
      dictGet? (m ++ [(k, v)]) k = some v := by
  intro m
  induction m with
  | nil => intro _; rw [List.nil_append, dictGet?, if_pos rfl]
  | cons p t ih =>
    intro h
    rw [dictMem, Bool.or_eq_false_iff, decide_eq_false_iff_not] at h
    rw [List.cons_append, dictGet?, if_neg h.1]
    exact ih h.2

theorem dictGet?_dictSet (m : Store) (k : String) (v : Item) :
    dictGet? (dictSet m k v) k = some v := by
  unfold dictSet
  split_ifs with h
  · exact dictGet?_dictReplace k v m h
  · exact dictGet?_append_self k v m (Bool.not_eq_true _ ▸ h)

theorem dictMem_dictReplace (k : String) (v : Item) :
    ∀ m : Store, dictMem m k = true →
      dictMem (dictReplace m k v) k = true := by
  intro m
  induction m with
  | nil => intro h; simp [dictMem] at h
  | cons p t ih =>
    intro h
    rw [dictMem, Bool.or_eq_true, decide_eq_true_eq] at h
    rw [dictReplace, dictMem, Bool.or_eq_true, decide_eq_true_eq]
    by_cases hp : p.1 = k
    · exact Or.inl (by rw [if_pos hp])
    · exact Or.inr (ih (h.resolve_left hp))

theorem dictReplace_dictReplace (k : String) (v : Item) :
    ∀ m : Store, dictReplace (dictReplace m k v) k v = dictReplace m k v := by
  intro m
  induction m with
  | nil => rfl
  | cons p t ih =>
    rw [dictReplace, dictReplace, ih]
    by_cases hp : p.1 = k
    · rw [if_pos hp, if_pos rfl]
    · rw [if_neg hp, if_neg hp]

theorem dictReplace_of_not_mem (k : String) (v : Item) :
    ∀ m : Store, dictMem m k = false → dictReplace m k v = m := by
  intro m
  induction m with
  | nil => intro _; rfl
  | cons p t ih =>
    intro h
    rw [dictMem, Bool.or_eq_false_iff, decide_eq_false_iff_not] at h
    rw [dictReplace, if_neg h.1, ih h.2]

theorem dictMem_append_self (k : String) (v : Item) :
    ∀ m : Store, dictMem (m ++ [(k, v)]) k = true := by
  intro m
  induction m with
  | nil =>
    rw [List.nil_append, dictMem, Bool.or_eq_true, decide_eq_true_eq]
    exact Or.inl rfl
  | cons p t ih =>
    rw [List.cons_append, dictMem, Bool.or_eq_true]
    exact Or.inr ih

theorem dictReplace_append (k : String) (v : Item) (b : Store) :
    ∀ a : Store, dictReplace (a ++ b) k v = dictReplace a k v ++ dictReplace b k v := by
  intro a
  induction a with
  | nil => rfl
  | cons p t ih => rw [List.cons_append, dictReplace, dictReplace, ih,
      List.cons_append]

theorem dictSet_dictSet (m : Store) (k : String) (v : Item) :
    dictSet (dictSet m k v) k v = dictSet m k v := by
  unfold dictSet
  split_ifs with h h2 h3
  · exact dictReplace_dictReplace k v m
  · exact absurd (dictMem_dictReplace k v m h) h2
  · have hm : dictMem m k = false := Bool.not_eq_true _ ▸ h
    rw [dictReplace_append, dictReplace_of_not_mem k v m hm,
      dictReplace, if_pos rfl, dictReplace]
  · exact absurd (dictMem_append_self k v m) h3

/-- C1: merge is idempotent: re-merging the same candidate into the store
obtained from merging it once yields an identical store;
`merge_item (merge_item e c) c = merge_item e c` for every existing/candidate
pair; and a freshly inserted candidate merged with itself is unchanged. -/
theorem merge_idempotent (m : Store) (e c : Item) :
    mergeCandidate (mergeCandidate m c) c = mergeCandidate m c
    ∧ merge_item (merge_item e c) c = merge_item e c
    ∧ merge_item c c = c := by
  refine ⟨?_, merge_item_merge_item e c, merge_item_self c⟩
  cases hg : dictGet? m c.id with
  | some ex =>
    have h1 : mergeCandidate m c = dictSet m c.id (merge_item ex c) := by
      unfold mergeCandidate
      rw [hg]
    rw [h1]
    unfold mergeCandidate
    rw [dictGet?_dictSet]
    show dictSet (dictSet m c.id (merge_item ex c)) c.id
        (merge_item (merge_item ex c) c) = dictSet m c.id (merge_item ex c)
    rw [merge_item_merge_item, dictSet_dictSet]
  | none =>
    have h1 : mergeCandidate m c = dictSet m c.id c := by
      unfold mergeCandidate
      rw [hg]
    rw [h1]
    unfold mergeCandidate
    rw [dictGet?_dictSet]
    show dictSet (dictSet m c.id c) c.id (merge_item c c) = dictSet m c.id c
    rw [merge_item_self, dictSet_dictSet]

/-! ### Fill-if-blank (C2, C3, C9) -/

/-- Modelled from the spec's fill-if-blank wording, with blankness read as
"empty after whitespace trimming": the merged scalar keeps the existing
value when it is non-blank; otherwise it takes the candidate's value when
that is non-empty, and keeps the existing value when the candidate's is
empty. -/
def specFillIfBlank (e c : String) : String :=
  if pyStrip e ≠ "" then e else if c ≠ "" then c else e

theorem fillBlank_eq_specFill (e i : String) :
    fillBlank e i = specFillIfBlank e i := by
  simp only [fillBlank, specFillIfBlank, strOr, safe_str]
  by_cases he : pyStrip e = "" <;> by_cases hi : i = "" <;> simp [he, hi]

theorem pyStrip_ne_of_ne (i : String) (h : pyStrip i ≠ "") : i ≠ "" := by
  intro hi
  rw [hi] at h
  exact h rfl

theorem mergeCanon_eq_specFill (e i : String) :
    mergeCanon e i = specFillIfBlank e i := by
  unfold mergeCanon safe_str
  by_cases hc : pyStrip i ≠ "" ∧ pyStrip e = ""
  · rw [if_pos hc]
    have hi : i ≠ "" := pyStrip_ne_of_ne i hc.1
    simp [specFillIfBlank, hc.2, hi]
  · rw [if_neg hc]
    exact fillBlank_eq_specFill e i

/-- C3 counterexample: a whitespace-only `title` is a non-empty string,
yet `merge_item` overwrites it with the candidate's title, contradicting
"a populated existing value is never overwritten" read literally. -/
theorem merge_fill_whitespace_cex :
    ((⟨"", "", "", " ", "", "", "", "", 0, "", "", ""⟩ : Item).title ≠ "")
    ∧ (merge_item ⟨"", "", "", " ", "", "", "", "", 0, "", "", ""⟩
        ⟨"", "", "", "x", "", "", "", "", 0, "", "", ""⟩).title = "x" := by
  decide

/-- C3 (amended): every scalar descriptive field of the merged record
equals the existing value when that value is non-blank (non-empty after
whitespace trimming), else the candidate's value when non-empty, else the
existing value. -/
theorem merge_scalar_fill_if_blank (e c : Item) :
    (merge_item e c).title = specFillIfBlank e.title c.title
    ∧ (merge_item e c).source = specFillIfBlank e.source c.source
    ∧ (merge_item e c).bundle = specFillIfBlank e.bundle c.bundle
    ∧ (merge_item e c).query = specFillIfBlank e.query c.query
    ∧ (merge_item e c).url = specFillIfBlank e.url c.url
    ∧ (merge_item e c).canonical_url =
        specFillIfBlank e.canonical_url c.canonical_url
    ∧ (merge_item e c).guid = specFillIfBlank e.guid c.guid := by
  simp [merge_item, fillBlank_eq_specFill, mergeCanon_eq_specFill]

/-- C2 counterexample: enrichment present only on the candidate is not
adopted: the merged `blurb` stays empty although the candidate carries
one (`merge_item` copies `existing` and never reads the candidate's
`blurb`, `image_url`, `pdf_path`). -/
theorem merge_enrichment_cex :
    ((⟨"", "", "", "", "", "", "", "", 0, "", "", ""⟩ : Item).blurb = "")
    ∧ ((⟨"", "", "", "", "", "", "", "", 0, "b", "i", "p"⟩ : Item).blurb = "b")
    ∧ (merge_item ⟨"", "", "", "", "", "", "", "", 0, "", "", ""⟩
        ⟨"", "", "", "", "", "", "", "", 0, "b", "i", "p"⟩).blurb = "" := by
  decide

/-- C2 (amended): the enrichment fields of the merged record always equal
the existing record's values: enrichment already in the store is
preserved, and enrichment present only on the candidate is never
adopted. -/
theorem merge_enrichment_from_existing (e c : Item) :
    (merge_item e c).blurb = e.blurb
    ∧ (merge_item e c).image_url = e.image_url
    ∧ (merge_item e c).pdf_path = e.pdf_path := by
  simp [merge_item]

/-- C9: a non-empty existing `id` survives any merge unchanged. -/
theorem merge_preserves_id (e c : Item) (h : e.id ≠ "") :
    (merge_item e c).id = e.id := by
  simp [merge_item, strOr, h]

/-- Witness for C9 at a concrete pair whose ids differ. -/
theorem merge_preserves_id_witness :
    ((⟨"a", "", "", "", "", "", "", "", 0, "", "", ""⟩ : Item).id ≠ "")
    ∧ (merge_item ⟨"a", "", "", "", "", "", "", "", 0, "", "", ""⟩
        ⟨"b", "", "", "", "", "", "", "", 7, "", "", ""⟩).id = "a" :=
  ⟨by decide,
   merge_preserves_id ⟨"a", "", "", "", "", "", "", "", 0, "", "", ""⟩
     ⟨"b", "", "", "", "", "", "", "", 7, "", "", ""⟩ (by decide)⟩

/-! ### Bundle query language (parser and compiler) -/

/-- A `QuerySpec` (build.py lines 36-41). -/
structure QuerySpec where
  bundle : String
  «include» : String
  bundle_exclude : List String
  query_exclude : List String
deriving DecidableEq, Repr

/-- `QuerySpec.to_google_query` (build.py lines 43-50): include first, then
every bundle-level and query-level exclusion, each rendered with a single
leading `-` unless already carrying one, joined by single spaces. -/
def to_google_query (s : QuerySpec) : String :=
  let parts := [pyStrip s.«include»] ++
    (s.bundle_exclude ++ s.query_exclude).filterMap (fun raw =>
      let ex := pyStrip raw
      if ex = "" then none
      else some (if strStartsWith ex "-" then ex else "-" ++ ex))
  pyStrip (String.mk (List.intercalate [' '] (parts.map String.data)))

/-- One line matched against a marker pattern `^\s*M\s+(.*\S)\s*$`
(build.py lines 90, 101, 113, 125): returns the stripped content group
when the line matches. -/
def matchMarker (marker : String) (ln : String) : Option String :=
  let t := pyStrip ln
  if strStartsWith t marker then
    match t.data.drop marker.data.length with
    | [] => none
    | c :: rest =>
      if isSpaceChar c then
        let content := pyStrip (String.mk (c :: rest))
        if content = "" then none else some content
      else none
  else none

/-- The comprehension `[_clean_exclusion(x) for x in bundle_excludes if
_clean_exclusion(x)]` (build.py lines 108, 120). -/
def cleanedExcludes (bs : List String) : List String :=
  bs.filterMap (fun x =>
    let c := _clean_exclusion x
    if c = "" then none else some c)

/-- The parser's mutable state (build.py lines 75-78). -/
structure PState where
  bundle : Option String
  bundleExcludes : List String
  current : Option QuerySpec
  out : List QuerySpec

/-- `flush_current` (build.py lines 80-84) as the list it appends. -/
def flushList : Option QuerySpec → List QuerySpec
  | some s => [s]
  | none => []

/-- One iteration of the parser's line loop (build.py lines 86-134). -/
def parseStep (st : PState) (ln : String) : PState :=
  if pyStrip ln = "" then st
  else
    match matchMarker "##" ln with
    | some name => ⟨some name, [], none, st.out ++ flushList st.current⟩
    | none =>
      match st.bundle with
      | none => st
      | some b =>
        match matchMarker "+" ln with
        | some inc =>
          { st with
            current := some ⟨b, inc, cleanedExcludes st.bundleExcludes, []⟩
            out := st.out ++ flushList st.current }
        | none =>
          match matchMarker "*" ln with
          | some inc =>
            { st with
              current := none
              out := st.out ++ flushList st.current ++
                [⟨b, inc, cleanedExcludes st.bundleExcludes, []⟩] }
          | none =>
            match matchMarker "-" ln with
            | some val =>
              match st.current with
              | some cur =>
                let cur2 := { cur with query_exclude :=
                  cur.query_exclude ++ [_clean_exclusion val] }
                { st with current := some cur2 }
              | none =>
                { st with bundleExcludes :=
                    st.bundleExcludes ++ [_clean_exclusion val] }
            | none => st

/-- The final cleanup pass (build.py lines 139-146): drop specs with a
blank include, drop blank exclusion entries. -/
def finalizeSpecs (out : List QuerySpec) : List QuerySpec :=
  out.filterMap (fun s =>
    if pyStrip s.«include» = "" then none
    else some { s with
      bundle_exclude := s.bundle_exclude.filter (fun x => pyStrip x != "")
      query_exclude := s.query_exclude.filter (fun x => pyStrip x != "") })

/-- Split on newline characters (the source splits into lines and
right-strips each line, build.py line 72). -/
def splitOnNl : List Char → List (List Char)
  | [] => [[]]
  | c :: r =>
    if c = '\n' then [] :: splitOnNl r
    else
      match splitOnNl r with
      | [] => [[c]]
      | h :: t => (c :: h) :: t

/-- `parse_bundles_md` (build.py lines 53-148). -/
def parse_bundles_md (text : String) : List QuerySpec :=
  let lines := (splitOnNl text.data).map (fun l => pyRStrip (String.mk l))
  let st := lines.foldl parseStep ⟨none, [], none, []⟩
  finalizeSpecs (st.out ++ flushList st.current)

/-- C6: the four-line scenario document parses to exactly one QuerySpec
with the scoped exclusions, and compiles to
"apple vision pro -rumor -leak". -/
theorem parse_compile_scenario :
    parse_bundles_md "## Tech\n- rumor\n+ apple vision pro\n- leak" =
      [⟨"Tech", "apple vision pro", ["rumor"], ["leak"]⟩]
    ∧ to_google_query ⟨"Tech", "apple vision pro", ["rumor"], ["leak"]⟩ =
      "apple vision pro -rumor -leak" := by
  decide

/-- C7 counterexample: a bundle document repeating the same bundle-level
exclusion term yields a QuerySpec whose `bundle_exclude` still contains
the duplicate: the parser does not de-duplicate. -/
theorem bundle_exclude_dedup_cex :
    (parse_bundles_md "## B\n- x\n- x\n+ q").map QuerySpec.bundle_exclude
      = [["x", "x"]]
    ∧ ¬ (["x", "x"] : List String).Nodup := by
  exact ⟨by decide, by decide⟩

/-! ### Catalog meta bundle exclusions (build.py lines 325-334) -/

/-- Lookup in the `bundle_exclusions` mapping; `[]` when absent. -/
def metaGet : List (String × List String) → String → List String
  | [], _ => []
  | p :: t, k => if p.1 = k then p.2 else metaGet t k

/-- Key membership in the `bundle_exclusions` mapping. -/
def metaMem : List (String × List String) → String → Bool
  | [], _ => false
  | p :: t, k => p.1 = k || metaMem t k

/-- Append one term to the list stored at a key (Python
`bundle_exclusions[b].append(ex)`). -/
def metaAppendAt : List (String × List String) → String → String →
    List (String × List String)
  | [], _, _ => []
  | p :: t, k, ex =>
    if p.1 = k then (p.1, p.2 ++ [ex]) :: t else p :: metaAppendAt t k ex

/-- One exclusion term folded into the meta mapping (build.py lines
331-334): cleaned, then appended only when non-empty and not already
present under the bundle. -/
def addBundleExclusion (m : List (String × List String)) (b raw : String) :
    List (String × List String) :=
  let ex := _clean_exclusion raw
  if ex ≠ "" ∧ ex ∉ metaGet m b then metaAppendAt m b ex else m

/-- One spec folded into the meta mapping (build.py lines 328-334):
`setdefault(b, [])` then the per-term loop. -/
def bundleExclStep (m : List (String × List String)) (s : QuerySpec) :
    List (String × List String) :=
  s.bundle_exclude.foldl (fun m2 raw => addBundleExclusion m2 s.bundle raw)
    (if metaMem m s.bundle then m else m ++ [(s.bundle, [])])

/-- The catalog meta's `bundle_exclusions` mapping (build.py lines
325-334). -/
def bundle_exclusions (specs : List QuerySpec) : List (String × List String) :=
  specs.foldl bundleExclStep []

theorem metaGet_nodup (m : List (String × List String))
    (h : ∀ p ∈ m, p.2.Nodup) : ∀ k, (metaGet m k).Nodup := by
  induction m with
  | nil => intro k; simp [metaGet]
  | cons p t ih =>
    intro k
    rw [metaGet]
    by_cases hp : p.1 = k
    · rw [if_pos hp]
      exact h p (List.mem_cons_self p t)
    · rw [if_neg hp]
      exact ih (fun q hq => h q (List.mem_cons_of_mem p hq)) k

theorem entries_nodup_metaAppendAt (b ex : String) :
    ∀ m : List (String × List String), (∀ p ∈ m, p.2.Nodup) →
      ex ∉ metaGet m b → ∀ p ∈ metaAppendAt m b ex, p.2.Nodup := by
  intro m
  induction m with
  | nil =>
    intro _ _ p hp
    simp [metaAppendAt] at hp
  | cons q t ih =>
    intro h hex p hp
    rw [metaAppendAt] at hp
    by_cases hq : q.1 = b
    · rw [if_pos hq] at hp
      rw [metaGet, if_pos hq] at hex
      rcases List.mem_cons.mp hp with h1 | h2
      · rw [h1]
        refine List.Nodup.append (h q (List.mem_cons_self q t))
          (List.nodup_singleton ex) ?_
        intro x hx hx2
        rw [List.mem_singleton] at hx2
        rw [hx2] at hx
        exact hex hx
      · exact h p (List.mem_cons_of_mem q h2)
    · rw [if_neg hq] at hp
      rw [metaGet, if_neg hq] at hex
      rcases List.mem_cons.mp hp with h1 | h2
      · rw [h1]
        exact h q (List.mem_cons_self q t)
      · exact ih (fun r hr => h r (List.mem_cons_of_mem q hr)) hex p h2

theorem entries_nodup_addBundleExclusion
    (m : List (String × List String)) (b raw : String)
    (h : ∀ p ∈ m, p.2.Nodup) :
    ∀ p ∈ addBundleExclusion m b raw, p.2.Nodup := by
  unfold addBundleExclusion
  simp only []
  split_ifs with hc
  · exact entries_nodup_metaAppendAt b _ m h hc.2
  · exact h

theorem entries_nodup_setdefault
    (m : List (String × List String)) (b : String)
    (h : ∀ p ∈ m, p.2.Nodup) :
    ∀ p ∈ (if metaMem m b then m else m ++ [(b, [])]), p.2.Nodup := by
  split_ifs
  · exact h
  · intro p hp
    rcases List.mem_append.mp hp with h1 | h2
    · exact h p h1
    · rw [List.mem_singleton] at h2
      rw [h2]
      exact List.nodup_nil

theorem entries_nodup_foldl_excl (b : String) :
    ∀ (l : List String) (m : List (String × List String)),
      (∀ p ∈ m, p.2.Nodup) →
      ∀ p ∈ l.foldl (fun m2 raw => addBundleExclusion m2 b raw) m, p.2.Nodup := by
  intro l
  induction l with
  | nil => intro m h; exact h
  | cons raw t ih =>
    intro m h
    exact ih _ (entries_nodup_addBundleExclusion m b raw h)

theorem entries_nodup_bundle_exclusions (specs : List QuerySpec) :
    ∀ p ∈ bundle_exclusions specs, p.2.Nodup := by
  unfold bundle_exclusions
  have main : ∀ (l : List QuerySpec) (m : List (String × List String)),
      (∀ p ∈ m, p.2.Nodup) → ∀ p ∈ l.foldl bundleExclStep m, p.2.Nodup := by
    intro l
    induction l with
    | nil => intro m h; exact h
    | cons s t ih =>
      intro m h
      refine ih _ ?_
      unfold bundleExclStep
      exact entries_nodup_foldl_excl s.bundle s.bundle_exclude _
        (entries_nodup_setdefault m s.bundle h)
  exact main specs [] (by intro p hp; simp at hp)

/-- C7 (amended): de-duplication of bundle-level exclusion terms happens
in the catalog meta's per-bundle `bundle_exclusions` lists (which never
contain a duplicate term, however often a term repeats across the
bundle's bullet lines), not in the parser's `QuerySpec.bundle_exclude`
lists, which can carry duplicates. -/
theorem bundle_exclusions_nodup (specs : List QuerySpec) (b : String) :
    (metaGet (bundle_exclusions specs) b).Nodup :=
  metaGet_nodup (bundle_exclusions specs)
    (entries_nodup_bundle_exclusions specs) b

/-! ### SHA-256 (the digest used by `stable_id_for_item`, build.py 229) -/

def M32 : Nat := 4294967296

def rotr (n k : Nat) : Nat :=
  ((n >>> k) ||| (n <<< (32 - k))) % M32

def shaK : List Nat :=
  [1116352408, 1899447441, 3049323471, 3921009573, 961987163,
   1508970993, 2453635748, 2870763221, 3624381080, 310598401,
   607225278, 1426881987, 1925078388, 2162078206, 2614888103,
   3248222580, 3835390401, 4022224774, 264347078, 604807628,
   770255983, 1249150122, 1555081692, 1996064986, 2554220882,
   2821834349, 2952996808, 3210313671, 3336571891, 3584528711,
   113926993, 338241895, 666307205, 773529912, 1294757372,
   1396182291, 1695183700, 1986661051, 2177026350, 2456956037,
   2730485921, 2820302411, 3259730800, 3345764771, 3516065817,
   3600352804, 4094571909, 275423344, 430227734, 506948616,
   659060556, 883997877, 958139571, 1322822218, 1537002063,
   1747873779, 1955562222, 2024104815, 2227730452, 2361852424,
   2428436474, 2756734187, 3204031479, 3329325298]

def shaH0 : List Nat :=
  [1779033703, 3144134277, 1013904242, 2773480762, 1359893119,
   2600822924, 528734635, 1541459225]

def padMessage (msg : List Nat) : List Nat :=
  let len := msg.length
  let z := (119 - len % 64) % 64
  let bitlen := 8 * len
  msg ++ [0x80] ++ List.replicate z 0 ++
    (List.range 8).map (fun i => (bitlen >>> (8 * (7 - i))) % 256)

/-- Split the padded message into 64-byte blocks (the fuel argument makes
the recursion structural; each step consumes at least one byte, so
`l.length` fuel always suffices). -/
def chunksGo : Nat → List Nat → List (List Nat)
  | 0, _ => []
  | _, [] => []
  | fuel + 1, l => l.take 64 :: chunksGo fuel (l.drop 64)

def chunks64 (l : List Nat) : List (List Nat) :=
  chunksGo l.length l

def toWords (block : List Nat) : List Nat :=
  (List.range 16).map (fun i =>
    (block.getD (4 * i) 0) * 16777216 + (block.getD (4 * i + 1) 0) * 65536 +
      (block.getD (4 * i + 2) 0) * 256 + block.getD (4 * i + 3) 0)

def smallSigma0 (x : Nat) : Nat := rotr x 7 ^^^ rotr x 18 ^^^ (x >>> 3)
def smallSigma1 (x : Nat) : Nat := rotr x 17 ^^^ rotr x 19 ^^^ (x >>> 10)
def bigSigma0 (x : Nat) : Nat := rotr x 2 ^^^ rotr x 13 ^^^ rotr x 22
def bigSigma1 (x : Nat) : Nat := rotr x 6 ^^^ rotr x 11 ^^^ rotr x 25

def schedule (w : List Nat) : List Nat :=
  (List.range 48).foldl (fun w _ =>
    let n := w.length
    w ++ [(smallSigma1 (w.getD (n - 2) 0) + w.getD (n - 7) 0 +
      smallSigma0 (w.getD (n - 15) 0) + w.getD (n - 16) 0) % M32]) w

def compress (h : List Nat) (w : List Nat) : List Nat :=
  let st := (List.range 64).foldl (fun st t =>
    let a := st.getD 0 0
    let b := st.getD 1 0
    let c := st.getD 2 0
    let d := st.getD 3 0
    let e := st.getD 4 0
    let f := st.getD 5 0
    let g := st.getD 6 0
    let hh := st.getD 7 0
    let t1 := (hh + bigSigma1 e + ((e &&& f) ^^^ ((e ^^^ 4294967295) &&& g)) +
      shaK.getD t 0 + w.getD t 0) % M32
    let t2 := (bigSigma0 a + ((a &&& b) ^^^ (a &&& c) ^^^ (b &&& c))) % M32
    [(t1 + t2) % M32, a, b, c, (d + t1) % M32, e, f, g]) h
  (List.range 8).map (fun i => (h.getD i 0 + st.getD i 0) % M32)

def sha256Words (msg : List Nat) : List Nat :=
  (chunks64 (padMessage msg)).foldl
    (fun h blk => compress h (schedule (toWords blk))) shaH0

/-- UTF-8 encoding of one character (Python `str.encode("utf-8")`). -/
def utf8EncodeChar (c : Char) : List Nat :=
  let n := c.toNat
  if n < 0x80 then [n]
  else if n < 0x800 then [0xC0 + n / 64, 0x80 + n % 64]
  else if n < 0x10000 then
    [0xE0 + n / 4096, 0x80 + (n / 64) % 64, 0x80 + n % 64]
  else
    [0xF0 + n / 262144, 0x80 + (n / 4096) % 64, 0x80 + (n / 64) % 64,
     0x80 + n % 64]

def strBytes (s : String) : List Nat :=
  (s.data.map utf8EncodeChar).flatten

def hexDigit (n : Nat) : Char :=
  if n < 10 then Char.ofNat (48 + n) else Char.ofNat (87 + n)

def toHex8 (n : Nat) : List Char :=
  (List.range 8).map (fun k => hexDigit ((n >>> (28 - 4 * k)) % 16))

/-- `hashlib.sha256(base.encode("utf-8")).hexdigest()`. -/
def sha256hex (s : String) : String :=
  String.mk (((sha256Words (strBytes s)).map toHex8).flatten)

/-- `stable_id_for_item` (build.py lines 212-229): digest of a prefixed
identity basis, canonical URL first, then raw URL, then guid, then a
synthetic lower-cased title/source/timestamp basis; truncated to 24 hex
characters. -/
def stable_id_base (it : Item) : String :=
  if safe_str it.canonical_url ≠ "" then "canon::" ++ safe_str it.canonical_url
  else if safe_str it.url ≠ "" then "url::" ++ safe_str it.url
  else if safe_str it.guid ≠ "" then "guid::" ++ safe_str it.guid
  else
    "ts::" ++ pyLower (safe_str it.title) ++ "::" ++
      pyLower (safe_str it.source) ++ "::" ++ toString it.published_ts

def stable_id_for_item (it : Item) : String :=
  String.mk ((sha256hex (stable_id_base it)).data.take 24)

/-- C5 counterexample: two records share the same non-empty (but
whitespace-only) `canonical_url`; the identity falls back to the raw URL
basis, so the two records get different ids although their canonical
URLs agree and are non-empty. -/
theorem identity_stability_cex :
    (" " : String) ≠ ""
    ∧ stable_id_for_item ⟨"", "", "", "", "", "a", " ", "", 0, "", "", ""⟩ ≠
      stable_id_for_item ⟨"", "", "", "", "", "b", " ", "", 0, "", "", ""⟩ := by
  exact ⟨by decide, by decide⟩

/-- C5 (amended): records with the same canonical URL that is non-blank
(non-empty after whitespace trimming) receive the same id, whatever their
other fields hold. -/
theorem identity_stability (a b : Item)
    (h1 : safe_str a.canonical_url ≠ "")
    (h2 : a.canonical_url = b.canonical_url) :
    stable_id_for_item a = stable_id_for_item b := by
  unfold stable_id_for_item stable_id_base
  rw [h2] at h1 ⊢
  rw [if_pos h1, if_pos h1]

/-- Witness for C5 (amended) at two records differing in every
non-canonical field. -/
theorem identity_stability_witness :
    safe_str (⟨"", "", "", "t1", "s1", "x", "https://pub.example/a", "g1",
        5, "", "", ""⟩ : Item).canonical_url ≠ ""
    ∧ stable_id_for_item ⟨"", "", "", "t1", "s1", "x", "https://pub.example/a",
        "g1", 5, "", "", ""⟩ =
      stable_id_for_item ⟨"", "", "", "t2", "s2", "y", "https://pub.example/a",
        "g2", 9, "", "", ""⟩ :=
  ⟨by decide, identity_stability _ _ (by decide) (by decide)⟩

/-! ### URL canonicalizer (build.py lines 178-209) -/

def isHexByte (n : Nat) : Bool :=
  (48 ≤ n ∧ n ≤ 57) ∨ (65 ≤ n ∧ n ≤ 70) ∨ (97 ≤ n ∧ n ≤ 102)

def hexVal (n : Nat) : Nat :=
  if n ≤ 57 then n - 48 else if n ≤ 70 then n - 55 else n - 87

/-- Percent-decoding at the byte level (`urllib.parse.unquote`'s
`%XX` handling; an invalid escape passes the `%` through verbatim). -/
def percentDecodeBytes : List Nat → List Nat
  | [] => []
  | 37 :: h1 :: h2 :: r =>
    if isHexByte h1 ∧ isHexByte h2 then
      (hexVal h1 * 16 + hexVal h2) :: percentDecodeBytes r
    else 37 :: percentDecodeBytes (h1 :: h2 :: r)
  | b :: r => b :: percentDecodeBytes r

def replChar : Char := Char.ofNat 0xFFFD

/-- UTF-8 decoding with replacement (Python `bytes.decode("utf-8",
errors="replace")`); the fuel argument makes the recursion structural and
`l.length` fuel always suffices since every step consumes a byte. -/
def utf8Go : Nat → List Nat → List Char
  | 0, _ => []
  | _, [] => []
  | fuel + 1, b :: r =>
    if b < 0x80 then Char.ofNat b :: utf8Go fuel r
    else if 0xC2 ≤ b ∧ b ≤ 0xDF then
      match r with
      | c :: r2 =>
        if 0x80 ≤ c ∧ c ≤ 0xBF then
          Char.ofNat ((b - 0xC0) * 64 + (c - 0x80)) :: utf8Go fuel r2
        else replChar :: utf8Go fuel r
      | [] => [replChar]
    else if 0xE0 ≤ b ∧ b ≤ 0xEF then
      match r with
      | c :: d :: r2 =>
        if (0x80 ≤ c ∧ c ≤ 0xBF) ∧ (0x80 ≤ d ∧ d ≤ 0xBF) ∧
            (b ≠ 0xE0 ∨ 0xA0 ≤ c) ∧ (b ≠ 0xED ∨ c ≤ 0x9F) then
          Char.ofNat ((b - 0xE0) * 4096 + (c - 0x80) * 64 + (d - 0x80)) ::
            utf8Go fuel r2
        else replChar :: utf8Go fuel r
      | _ => replChar :: utf8Go fuel r
    else if 0xF0 ≤ b ∧ b ≤ 0xF4 then
      match r with
      | c :: d :: e :: r2 =>
        if (0x80 ≤ c ∧ c ≤ 0xBF) ∧ (0x80 ≤ d ∧ d ≤ 0xBF) ∧
            (0x80 ≤ e ∧ e ≤ 0xBF) ∧ (b ≠ 0xF0 ∨ 0x90 ≤ c) ∧
            (b ≠ 0xF4 ∨ c ≤ 0x8F) then
          Char.ofNat ((b - 0xF0) * 262144 + (c - 0x80) * 4096 +
            (d - 0x80) * 64 + (e - 0x80)) :: utf8Go fuel r2
        else replChar :: utf8Go fuel r
      | _ => replChar :: utf8Go fuel r
    else replChar :: utf8Go fuel r

/-- `urllib.parse.unquote`. -/
def unquote (s : String) : String :=
  let bs := percentDecodeBytes (strBytes s)
  String.mk (utf8Go bs.length bs)

/-- `urllib.parse.unquote_plus` (used by `parse_qs` on names and
values): `+` becomes a space, then percent-decoding. -/
def unquote_plus (s : String) : String :=
  unquote (String.mk (s.data.map (fun c => if c = '+' then ' ' else c)))

/-- `urlparse(url).query`: everything after the first `?` of the part
before the first `#`. -/
def getQueryString (u : String) : String :=
  let beforeFrag := u.data.takeWhile (fun c => c ≠ '#')
  match beforeFrag.dropWhile (fun c => c ≠ '?') with
  | [] => ""
  | _ :: r => String.mk r

def splitOnChar (sep : Char) : List Char → List (List Char)
  | [] => [[]]
  | c :: r =>
    if c = sep then [] :: splitOnChar sep r
    else
      match splitOnChar sep r with
      | [] => [[c]]
      | h :: t => (c :: h) :: t

/-- `urllib.parse.parse_qsl` with default arguments: split the query on
`&`, drop empty pairs, pairs without `=` and pairs with an empty raw
value, and plus/percent-decode names and values. -/
def parse_qsl (qs : String) : List (String × String) :=
  (splitOnChar '&' qs.data).filterMap (fun pair =>
    if pair.isEmpty then none
    else
      match pair.dropWhile (fun c => c ≠ '=') with
      | [] => none
      | _ :: value =>
        if value.isEmpty then none
        else some (unquote_plus (String.mk (pair.takeWhile (fun c => c ≠ '='))),
          unquote_plus (String.mk value)))

/-- `parse_qs(q)[k][0]`: the first value stored under the key. -/
def firstVal : List (String × String) → String → Option String
  | [], _ => none
  | p :: t, k => if p.1 = k then some p.2 else firstVal t k

/-- The key loop of `extract_publisher_url_from_param` (build.py lines
182-186): for each key in order, if present, decode, strip, and return
when the value starts with `http`. -/
def extractLoop (pairs : List (String × String)) : List String → String
  | [] => ""
  | k :: ks =>
    match firstVal pairs k with
    | some raw =>
      if strStartsWith (pyStrip (unquote raw)) "http" then
        pyStrip (unquote raw)
      else extractLoop pairs ks
    | none => extractLoop pairs ks

/-- `extract_publisher_url_from_param` (build.py lines 178-189). -/
def extract_publisher_url_from_param (url : String) : String :=
  extractLoop (parse_qsl (getQueryString url)) ["url", "u"]

def schemeChar (c : Char) : Bool :=
  c.isAlpha ∨ c.isDigit ∨ c = '+' ∨ c = '-' ∨ c = '.'

/-- `urlsplit`'s scheme removal: drop a leading `scheme:` when the part
before the first colon is a valid scheme. -/
def schemeSplit (l : List Char) : List Char :=
  match l.takeWhile (fun c => c ≠ ':') with
  | [] => l
  | c :: rest =>
    if (c :: rest).length < l.length ∧ c.isAlpha ∧ rest.all schemeChar then
      l.drop ((c :: rest).length + 1)
    else l

/-- `urlparse(u).netloc`: after scheme removal, the part between `//` and
the first `/`, `?` or `#`. -/
def netlocOf (u : String) : String :=
  match schemeSplit u.data with
  | '/' :: '/' :: r =>
    String.mk (r.takeWhile (fun c => c ≠ '/' ∧ c ≠ '?' ∧ c ≠ '#'))
  | _ => ""

/-- `resolve_to_publisher` (build.py lines 192-209).  The `requests.get`
call is an oracle `fetch`; `none` models any raised exception, `some r`
models a completed request whose final URL is `r`. -/
def resolve_to_publisher (fetch : String → Option String) (url : String) :
    String :=
  if safe_str url = "" then ""
  else if extract_publisher_url_from_param (safe_str url) ≠ "" then
    extract_publisher_url_from_param (safe_str url)
  else
    match fetch (safe_str url) with
    | none => ""
    | some r =>
      if safe_str r ≠ "" ∧
          strContains (pyLower (netlocOf (safe_str r))) "news.google.com"
            = false then
        safe_str r
      else ""

/-- Modelled from the spec's wording "looks like an absolute HTTP(S)
URL". -/
def isAbsHttpUrl (v : String) : Prop :=
  strStartsWith v "http://" = true ∨ strStartsWith v "https://" = true

theorem isPrefixOf_of_append_isPrefixOf (ys : List Char) :
    ∀ (xs l : List Char), (xs ++ ys).isPrefixOf l = true →
      xs.isPrefixOf l = true := by
  intro xs
  induction xs with
  | nil => intro l _; cases l <;> rfl
  | cons a as ih =>
    intro l h
    cases l with
    | nil => simp [List.isPrefixOf] at h
    | cons b bs =>
      rw [List.cons_append, List.isPrefixOf, Bool.and_eq_true] at h
      rw [List.isPrefixOf, Bool.and_eq_true]
      exact ⟨h.1, ih bs h.2⟩

theorem absHttp_startsWith_http (v : String) (h : isAbsHttpUrl v) :
    strStartsWith v "http" = true := by
  unfold strStartsWith
  unfold isAbsHttpUrl strStartsWith at h
  rcases h with h | h
  · rw [show ("http://".data) = "http".data ++ "://".data from by decide] at h
    exact isPrefixOf_of_append_isPrefixOf _ _ _ h
  · rw [show ("https://".data) = "http".data ++ "s://".data from by decide] at h
    exact isPrefixOf_of_append_isPrefixOf _ _ _ h

theorem absHttp_ne_empty (v : String) (h : isAbsHttpUrl v) : v ≠ "" := by
  intro hv
  rw [hv] at h
  rcases h with h | h <;> revert h <;> decide

theorem extractLoop_url_hit (pairs : List (String × String)) (raw dv : String)
    (hfind : firstVal pairs "url" = some raw)
    (hdv : pyStrip (unquote raw) = dv) (habs : isAbsHttpUrl dv) :
    extractLoop pairs ["url", "u"] = dv := by
  rw [extractLoop, hfind]
  show (if strStartsWith (pyStrip (unquote raw)) "http" = true then
    pyStrip (unquote raw) else extractLoop pairs ["u"]) = dv
  rw [hdv, if_pos (absHttp_startsWith_http dv habs)]

theorem extractLoop_u_hit (pairs : List (String × String)) (raw dv : String)
    (hno : ∀ raw0, firstVal pairs "url" = some raw0 →
      strStartsWith (pyStrip (unquote raw0)) "http" = false)
    (hfind : firstVal pairs "u" = some raw)
    (hdv : pyStrip (unquote raw) = dv) (habs : isAbsHttpUrl dv) :
    extractLoop pairs ["url", "u"] = dv := by
  have htail : extractLoop pairs ["u"] = dv := by
    rw [extractLoop, hfind]
    show (if strStartsWith (pyStrip (unquote raw)) "http" = true then
      pyStrip (unquote raw) else extractLoop pairs []) = dv
    rw [hdv, if_pos (absHttp_startsWith_http dv habs)]
  rw [extractLoop]
  cases hfu : firstVal pairs "url" with
  | none => exact htail
  | some raw0 =>
    show (if strStartsWith (pyStrip (unquote raw0)) "http" = true then
      pyStrip (unquote raw0) else extractLoop pairs ["u"]) = dv
    rw [if_neg (by rw [hno raw0 hfu]; exact Bool.false_ne_true)]
    exact htail

/-- C8: the canonicalizer's contract.  The network call is the oracle
`fetch`, so a conclusion that holds for every `fetch` holds without any
network call.  (a) When the query string of the URL carries a `url`
parameter whose decoded value is an absolute HTTP(S) URL, that decoded
value is returned, for every `fetch`.  (b) Likewise for a `u` parameter
when no `url` parameter yields an `http`-prefixed value.  (c) Empty input
resolves to the empty string.  (d) When no parameter extraction succeeds
and the fetch fails (`none`, modelling any network or parse exception),
or yields a blank final URL or one still hosted on news.google.com, the
result is the empty string. -/
theorem resolve_to_publisher_spec (fetch : String → Option String)
    (url : String) :
    (∀ raw dv, firstVal (parse_qsl (getQueryString (safe_str url))) "url"
        = some raw →
      pyStrip (unquote raw) = dv → isAbsHttpUrl dv →
      resolve_to_publisher fetch url = dv)
    ∧ ((∀ raw0, firstVal (parse_qsl (getQueryString (safe_str url))) "url"
          = some raw0 →
        strStartsWith (pyStrip (unquote raw0)) "http" = false) →
      ∀ raw dv, firstVal (parse_qsl (getQueryString (safe_str url))) "u"
          = some raw →
        pyStrip (unquote raw) = dv → isAbsHttpUrl dv →
        resolve_to_publisher fetch url = dv)
    ∧ (safe_str url = "" → resolve_to_publisher fetch url = "")
    ∧ (extract_publisher_url_from_param (safe_str url) = "" →
      (fetch (safe_str url) = none ∨
        ∀ f, fetch (safe_str url) = some f → (safe_str f = "" ∨
          strContains (pyLower (netlocOf (safe_str f))) "news.google.com"
            = true)) →
      resolve_to_publisher fetch url = "") := by
  refine ⟨?_, ?_, ?_, ?_⟩
  · intro raw dv hfind hdv habs
    by_cases hu : safe_str url = ""
    · rw [hu] at hfind
      have hnone : firstVal (parse_qsl (getQueryString "")) "url" = none := rfl
      rw [hnone] at hfind
      exact absurd hfind (by simp)
    · have hext : extract_publisher_url_from_param (safe_str url) = dv :=
        extractLoop_url_hit _ raw dv hfind hdv habs
      unfold resolve_to_publisher
      rw [if_neg hu, hext, if_pos (absHttp_ne_empty dv habs)]
  · intro hno raw dv hfind hdv habs
    by_cases hu : safe_str url = ""
    · rw [hu] at hfind
      have hnone : firstVal (parse_qsl (getQueryString "")) "u" = none := rfl
      rw [hnone] at hfind
      exact absurd hfind (by simp)
    · have hext : extract_publisher_url_from_param (safe_str url) = dv :=
        extractLoop_u_hit _ raw dv hno hfind hdv habs
      unfold resolve_to_publisher
      rw [if_neg hu, hext, if_pos (absHttp_ne_empty dv habs)]
  · intro hu
    unfold resolve_to_publisher
    rw [if_pos hu]
  · intro hext hfetch
    by_cases hu : safe_str url = ""
    · unfold resolve_to_publisher
      rw [if_pos hu]
    · unfold resolve_to_publisher
      rw [if_neg hu, hext]
      rw [if_neg (by intro hc; exact hc rfl)]
      rcases hfetch with hf | hf
      · rw [hf]
      · cases hfr : fetch (safe_str url) with
        | none => rfl
        | some f =>
          show (if safe_str f ≠ "" ∧
              strContains (pyLower (netlocOf (safe_str f))) "news.google.com"
                = false then safe_str f else "") = ""
          rcases hf f hfr with h1 | h1
          · rw [if_neg]
            intro hc
            exact hc.1 h1
          · rw [if_neg]
            intro hc
            rw [h1] at hc
            exact absurd hc.2 (by decide)

/-- Witness for C8 at a Google-News redirect URL carrying the publisher
URL in its `url` parameter (resolved without touching the failing
fetch), the empty URL, and a parameter-free Google URL whose fetch
fails. -/
theorem resolve_to_publisher_spec_witness :
    resolve_to_publisher (fun _ => none)
        "https://news.google.com/rss/articles/x?url=https%3A%2F%2Fpub.example%2Fa&hl=en"
      = "https://pub.example/a"
    ∧ resolve_to_publisher (fun _ => none) "" = ""
    ∧ resolve_to_publisher (fun _ => none) "https://news.google.com/abc"
      = "" :=
  ⟨(resolve_to_publisher_spec (fun _ => none)
      "https://news.google.com/rss/articles/x?url=https%3A%2F%2Fpub.example%2Fa&hl=en").1
    "https://pub.example/a" "https://pub.example/a" (by decide) (by decide)
    (Or.inr (by decide)),
   (resolve_to_publisher_spec (fun _ => none) "").2.2.1 (by decide),
   (resolve_to_publisher_spec (fun _ => none)
      "https://news.google.com/abc").2.2.2 (by decide) (Or.inl rfl)⟩

/-! ### Retention (build.py lines 310-320) -/

/-- The retention filter of `main` (build.py lines 314-320): drop undated
items (`published_ts == 0`) and items strictly older than
`now - retention_days*86400`. -/
def retain (items : List Item) (now retention_days : Int) : List Item :=
  items.filter (fun it =>
    decide (it.published_ts ≠ 0 ∧
      now - retention_days * 86400 ≤ it.published_ts))

/-- C4 counterexample: with `now = 86400` and `retention_days = 1` the
boundary timestamp `now - retention_days*86400` is `0`, and the item
sitting exactly on the boundary is dropped, not kept as the claim
demands. -/
theorem retention_boundary_cex :
    ((0 : Int) = 86400 - 1 * 86400)
    ∧ retain [⟨"", "", "", "t", "", "", "", "", 0, "", "", ""⟩] 86400 1
        = [] := by
  exact ⟨by decide, by decide⟩

/-- C4 (amended): an item one second older than the boundary is dropped,
an item exactly on the boundary is kept provided the boundary timestamp
is not `0`, and an undated item (`published_ts = 0`) is always
dropped. -/
theorem retention_boundary (items : List Item) (now rd : Int) (it : Item)
    (hmem : it ∈ items) :
    (it.published_ts = now - rd * 86400 - 1 → it ∉ retain items now rd)
    ∧ (it.published_ts = now - rd * 86400 → it.published_ts ≠ 0 →
        it ∈ retain items now rd)
    ∧ (it.published_ts = 0 → it ∉ retain items now rd) := by
  refine ⟨?_, ?_, ?_⟩
  · intro h hin
    rw [retain, List.mem_filter, decide_eq_true_eq] at hin
    omega
  · intro h h0
    rw [retain, List.mem_filter, decide_eq_true_eq]
    exact ⟨hmem, h0, by omega⟩
  · intro h hin
    rw [retain, List.mem_filter, decide_eq_true_eq] at hin
    omega

/-- Witness for C4 (amended): with `now` two days and `retention_days`
one day, the item exactly on the (nonzero) boundary is kept and an
undated item is dropped. -/
theorem retention_boundary_witness :
    (⟨"", "", "", "t", "", "", "", "", 86400, "", "", ""⟩ : Item) ∈
      retain [⟨"", "", "", "t", "", "", "", "", 86400, "", "", ""⟩] 172800 1
    ∧ (⟨"", "", "", "u", "", "", "", "", 0, "", "", ""⟩ : Item) ∉
      retain [⟨"", "", "", "u", "", "", "", "", 0, "", "", ""⟩] 172800 1 :=
  ⟨(retention_boundary _ 172800 1 _ (by decide)).2.1 (by decide) (by decide),
   (retention_boundary _ 172800 1 _ (by decide)).2.2 (by decide)⟩

/-! ### Per-query intake (build.py lines 272-308) -/

/-- `MAX_ITEMS_PER_QUERY` (build.py line 25). -/
def MAX_ITEMS_PER_QUERY : Nat := 50

/-- One raw feed entry as the source reads it (feedparser object):
`title`, `link`, `guid`, `id`, `source.title` default to `""` when
absent; the parsed timestamps are the `mktime` values when present. -/
structure Entry where
  title : String
  link : String
  guid : String
  idAttr : String
  sourceTitle : String
  published_parsed : Option Int
  updated_parsed : Option Int
deriving DecidableEq, Repr

/-- `to_ts` (build.py lines 155-160). -/
def to_ts (e : Entry) : Int :=
  match e.published_parsed with
  | some t => t
  | none =>
    match e.updated_parsed with
    | some t => t
    | none => 0

/-- The candidate item built from one feed entry (build.py lines
277-302), `none` when title, url and guid are all blank (line 281). -/
def mkIncoming (fetch : String → Option String) (spec : QuerySpec)
    (e : Entry) : Option Item :=
  let title := safe_str e.title
  let url := safe_str e.link
  let guid := strOr (safe_str e.guid) (safe_str e.idAttr)
  if title = "" ∧ url = "" ∧ guid = "" then none
  else
    let source := safe_str e.sourceTitle
    let ts := to_ts e
    let canonical := if url ≠ "" then resolve_to_publisher fetch url else ""
    let base : Item :=
      ⟨"", spec.bundle, spec.«include», title, source, url, canonical, guid,
        ts, "", "", ""⟩
    some { base with id := stable_id_for_item base }

/-- One feed entry processed into the store (build.py lines 277-308). -/
def processEntry (fetch : String → Option String) (spec : QuerySpec)
    (m : Store) (e : Entry) : Store :=
  match mkIncoming fetch spec e with
  | none => m
  | some inc => mergeCandidate m inc

/-- The per-query loop of `main` (build.py lines 272-308): only the first
`MAX_ITEMS_PER_QUERY` feed entries are processed
(`entries = getattr(feed, "entries", [])[:MAX_ITEMS_PER_QUERY]`). -/
def runQuery (fetch : String → Option String) (spec : QuerySpec) (m : Store)
    (entries : List Entry) : Store :=
  (entries.take MAX_ITEMS_PER_QUERY).foldl (processEntry fetch spec) m

/-- C10: feed entries beyond the first `MAX_ITEMS_PER_QUERY` (50) never
influence the run: the store after processing `l1 ++ l2`, where `l1`
already holds 50 entries, is identical to the store after processing
`l1` alone, so the extra entries are never identified, merged, or
retained into the catalog (which is computed from the store). -/
theorem per_query_intake_cap (fetch : String → Option String)
    (spec : QuerySpec) (m : Store) (l1 l2 : List Entry)
    (h : l1.length = MAX_ITEMS_PER_QUERY) :
    runQuery fetch spec m (l1 ++ l2) = runQuery fetch spec m l1
    ∧ ∀ now rd,
      retain (runQuery fetch spec m (l1 ++ l2)).unzip.2 now rd =
      retain (runQuery fetch spec m l1).unzip.2 now rd := by
  have hrq : runQuery fetch spec m (l1 ++ l2) = runQuery fetch spec m l1 := by
    unfold runQuery
    rw [← h, List.take_left, List.take_length]
  exact ⟨hrq, fun now rd => by rw [hrq]⟩

/-- Witness for C10: a 50-entry prefix followed by one extra entry. -/
theorem per_query_intake_cap_witness :
    runQuery (fun _ => none) ⟨"b", "q", [], []⟩ []
        (List.replicate 50 ⟨"t", "", "", "", "", some 1, none⟩ ++
          [⟨"extra", "", "", "", "", some 2, none⟩]) =
      runQuery (fun _ => none) ⟨"b", "q", [], []⟩ []
        (List.replicate 50 ⟨"t", "", "", "", "", some 1, none⟩) :=
  (per_query_intake_cap (fun _ => none) ⟨"b", "q", [], []⟩ []
    (List.replicate 50 ⟨"t", "", "", "", "", some 1, none⟩)
    [⟨"extra", "", "", "", "", some 2, none⟩]
    (by simp [MAX_ITEMS_PER_QUERY])).1

end NewsFeeds
